import Mathlib

/-!
Shallow embedding of the store engine of `src/src/bindActionCreators.ts`
(the `createStore` half of the file) and of `src/src/compose.ts`.

Modelling conventions:
* A JavaScript value submitted to `dispatch` is an `ActionVal`: either a
  plain object carrying an optional `type` field (`none` = the field is
  undefined), or one of the non-plain shapes the spec's examples use
  (a string, `null`, an array).  `isPlainObject` / the `typeof
  action.type === 'undefined'` test become the Boolean predicates below.
* The possibly-undefined store state is `Option S` (`none` = undefined).
* A reducer is `Option S → ActionVal → Except String (Option S)`; an
  `Except.error msg` models the reducer throwing the exception `msg`.
* Listeners are identified by natural numbers.  What a listener does when
  invoked is given by a script `List LOp` of store operations (read the
  state, subscribe, unsubscribe); nested `dispatch` from a listener is
  outside this embedding.  Each `subscribe` call returns a token (the
  index of a record in `subRecords`), modelling the closure returned by
  the source's `subscribe` together with its captured `isSubscribed` flag.
* The source's two array references `currentListeners` / `nextListeners`
  are modelled by their values plus the Boolean `aliased`, which is true
  exactly when the two references point at the same array object
  (`nextListeners === currentListeners`); `ensureCanMutateNextListeners`
  clones, i.e. clears the flag, so that in-place mutation of the array an
  in-flight notification iterates over never happens.
* Every intermediate fact a claim observes (which listener ran, what the
  dispatching flag was at that moment, what an in-listener `getState`
  returned, when the reducer was entered) is recorded in a trace of
  `Event`s emitted alongside the new engine.
-/

namespace SccRedux

/-- A JavaScript value passed to `dispatch`.  `plain t?` is a plain object
whose `type` field is `t?` (`none` = undefined); the other constructors
are the non-plain shapes used by the spec's failure examples. -/
inductive ActionVal where
  | plain (type? : Option String)
  | strVal (s : String)
  | nullVal
  | arrVal
deriving DecidableEq, Repr

/-- `isPlainObject(action)` of `src/utils/isPlainObject` as the engine uses
it: true exactly on plain objects. -/
def isPlainObject : ActionVal → Bool
  | .plain _ => true
  | _ => false

/-- `typeof action.type !== 'undefined'` for a plain action. -/
def actionTypeDefined : ActionVal → Bool
  | .plain (some _) => true
  | _ => false

/-- An action `dispatch` accepts: a plain object with a defined `type`. -/
def isValidAction (a : ActionVal) : Bool := isPlainObject a && actionTypeDefined a

/-- `ActionTypes.INIT` (the source appends a random suffix to the string;
the suffix plays no role in the engine's behaviour). -/
def initAction : ActionVal := .plain (some "@@redux/INIT")

/-- `ActionTypes.REPLACE` (again modulo the random suffix). -/
def replaceAction : ActionVal := .plain (some "@@redux/REPLACE")

/-- The errors the engine throws, plus `reducerRaised msg` for an
exception `msg` raised by the reducer itself and propagated by
`dispatch`. -/
inductive StoreErr where
  | invalidAction
  | missingType
  | reentrancy
  | reducerRaised (msg : String)
deriving DecidableEq, Repr

/-- The mutable closure state of one store built by `createStore`
(lines 285-289 of the source), plus `subRecords`: one record
`(listenerId, isSubscribed)` per `subscribe` call, modelling the
`isSubscribed` flag captured by each returned `unsubscribe` closure. -/
structure Engine (S : Type) where
  currentReducer : Option S → ActionVal → Except String (Option S)
  currentState : Option S
  currentListeners : Option (List Nat)
  nextListeners : List Nat
  aliased : Bool
  subRecords : List (Nat × Bool)
  isDispatching : Bool

/-- `ensureCanMutateNextListeners`: when `nextListeners` is still the same
array object as `currentListeners`, clone it.  In value semantics the
clone has the same contents, so only the aliasing flag changes. -/
def ensureCanMutateNextListeners {S : Type} (e : Engine S) : Engine S :=
  if e.aliased then { e with aliased := false } else e

/-- `nextListeners.splice(nextListeners.indexOf(listener), 1)`: remove the
first occurrence of `lid`; when absent, `indexOf` yields `-1` and
`splice(-1, 1)` removes the last element. -/
def removeListener (lid : Nat) (l : List Nat) : List Nat :=
  match l.findIdx? (fun x => x == lid) with
  | some i => l.eraseIdx i
  | none => l.dropLast

/-- Observable events recorded while the engine runs.  `invoked lid fl`
marks the call of listener `lid` with the dispatching flag equal to `fl`
at that moment; `reducerCalled fl` marks the entry into the reducer;
`gotState ok st` records the outcome of a `getState` call from inside a
listener (`ok = false` = it threw the reentrancy error). -/
inductive Event (S : Type) where
  | invoked (lid : Nat) (fl : Bool)
  | reducerCalled (fl : Bool)
  | gotState (ok : Bool) (st : Option S)
  | subscribed (tok : Nat)
  | subscribeFailed
  | unsubscribed (tok : Nat)
  | unsubscribeFailed
  | unsubscribeNoop
deriving DecidableEq, Repr

/-- One operation a listener may perform on its store while being
notified. -/
inductive LOp where
  | opGetState
  | opSubscribe (lid : Nat)
  | opUnsub (tok : Nat)
deriving DecidableEq, Repr

/-- Run one listener operation against the engine.  Each branch mirrors
the corresponding source function (`getState` lines 310-321, `subscribe`
lines 346-398, the returned `unsubscribe` closure lines 379-398). -/
def runOp {S : Type} (e : Engine S) : LOp → Engine S × List (Event S)
  | .opGetState =>
      if e.isDispatching then (e, [.gotState false none])
      else (e, [.gotState true e.currentState])
  | .opSubscribe lid =>
      if e.isDispatching then (e, [.subscribeFailed])
      else
        let e1 := ensureCanMutateNextListeners e
        (⟨e1.currentReducer, e1.currentState, e1.currentListeners,
          e1.nextListeners ++ [lid], e1.aliased,
          e1.subRecords ++ [(lid, true)], e1.isDispatching⟩,
         [.subscribed e1.subRecords.length])
  | .opUnsub tok =>
      match e.subRecords[tok]? with
      | none => (e, [.unsubscribeNoop])
      | some (lid, isSub) =>
          if !isSub then (e, [.unsubscribeNoop])
          else if e.isDispatching then (e, [.unsubscribeFailed])
          else
            let e1 := ensureCanMutateNextListeners
              { e with subRecords := e.subRecords.set tok (lid, false) }
            ({ e1 with nextListeners := removeListener lid e1.nextListeners,
                       currentListeners := none, aliased := false },
             [.unsubscribed tok])

/-- Run a listener's whole script, left to right. -/
def runOps {S : Type} (e : Engine S) : List LOp → Engine S × List (Event S)
  | [] => (e, [])
  | op :: rest =>
      let p := runOp e op
      let q := runOps p.1 rest
      (q.1, p.2 ++ q.2)

/-- The notification loop of `dispatch` (lines 463-467): iterate the fixed
snapshot, invoking each listener (whose behaviour is `beh`) in order.
The `invoked` event records the dispatching flag at the moment of the
call. -/
def notifyLoop {S : Type} (beh : Nat → List LOp) :
    Engine S → List Nat → Engine S × List (Event S)
  | e, [] => (e, [])
  | e, lid :: rest =>
      let p := runOps e (beh lid)
      let q := notifyLoop beh p.1 rest
      (q.1, Event.invoked lid e.isDispatching :: (p.2 ++ q.2))

/-- `dispatch(action)`, lines 430-470: validate the action, guard against
reentrancy, run the reducer inside try/finally (the flag is cleared on
every exit path, before the notification loop), take the snapshot
`const listeners = (currentListeners = nextListeners)` (which re-aliases
the two references), and notify.  Returns the JS return-or-throw outcome,
the engine after the call, and the event trace. -/
def dispatch {S : Type} (beh : Nat → List LOp) (e : Engine S) (a : ActionVal) :
    Except StoreErr ActionVal × Engine S × List (Event S) :=
  if !isPlainObject a then (.error .invalidAction, e, [])
  else if !actionTypeDefined a then (.error .missingType, e, [])
  else if e.isDispatching then (.error .reentrancy, e, [])
  else
    let eIn : Engine S := { e with isDispatching := true }
    match eIn.currentReducer eIn.currentState a with
    | .error msg =>
        (.error (.reducerRaised msg), { eIn with isDispatching := false },
         [Event.reducerCalled eIn.isDispatching])
    | .ok ns =>
        let eAfter : Engine S := { eIn with currentState := ns, isDispatching := false }
        let eSnap : Engine S :=
          { eAfter with currentListeners := some eAfter.nextListeners, aliased := true }
        let p := notifyLoop beh eSnap eSnap.nextListeners
        (.ok a, p.1, Event.reducerCalled eIn.isDispatching :: p.2)

/-- `getState()`, lines 310-321. -/
def getState {S : Type} (e : Engine S) : Except StoreErr (Option S) :=
  if e.isDispatching then .error .reentrancy else .ok e.currentState

/-- `subscribe(listener)` called from outside a notification (lines
346-377); the listener is a function by construction here, so only the
reentrancy guard remains.  Returns the token of the new subscription. -/
def subscribe {S : Type} (e : Engine S) (lid : Nat) :
    Except StoreErr (Engine S × Nat) :=
  if e.isDispatching then .error .reentrancy
  else
    let e1 := ensureCanMutateNextListeners e
    .ok (⟨e1.currentReducer, e1.currentState, e1.currentListeners,
          e1.nextListeners ++ [lid], e1.aliased,
          e1.subRecords ++ [(lid, true)], e1.isDispatching⟩,
         e1.subRecords.length)

/-- The closure state right after lines 285-289 run: before the bootstrap
`INIT` dispatch, with `nextListeners` aliased to `currentListeners`. -/
def initialEngine {S : Type}
    (reducer : Option S → ActionVal → Except String (Option S))
    (preloaded : Option S) : Engine S :=
  ⟨reducer, preloaded, some [], [], true, [], false⟩

/-- `createStore` without an enhancer (the base path): build the closure
state and perform the bootstrap dispatch of `ActionTypes.INIT`
(line 562).  A throw out of that dispatch propagates out of
`createStore`. -/
def createStoreBase {S : Type} (beh : Nat → List LOp)
    (reducer : Option S → ActionVal → Except String (Option S))
    (preloaded : Option S) : Except StoreErr (Engine S) :=
  match dispatch beh (initialEngine reducer preloaded) initAction with
  | (Except.ok _, e, _) => .ok e
  | (Except.error err, _, _) => .error err

/-- Dispatch a list of actions in order, stopping at the first throw. -/
def dispatchSeq {S : Type} (beh : Nat → List LOp) :
    Engine S → List ActionVal → Except StoreErr (Engine S)
  | e, [] => .ok e
  | e, a :: rest =>
      match dispatch beh e a with
      | (Except.ok _, e1, _) => dispatchSeq beh e1 rest
      | (Except.error err, _, _) => .error err

/-- `replaceReducer(nextReducer)`, lines 482-509: swap the reducer, then
perform one internal dispatch of `ActionTypes.REPLACE`.  The engine in
the returned triple is the same store, with its fields updated. -/
def replaceReducer {S : Type} (beh : Nat → List LOp) (e : Engine S)
    (next : Option S → ActionVal → Except String (Option S)) :
    Except StoreErr ActionVal × Engine S × List (Event S) :=
  dispatch beh ⟨next, e.currentState, e.currentListeners, e.nextListeners,
                e.aliased, e.subRecords, e.isDispatching⟩ replaceAction

/-- A reducer that never throws, lifted from a pure transition
function. -/
def liftR {S : Type} (f : Option S → ActionVal → Option S) :
    Option S → ActionVal → Except String (Option S) :=
  fun s a => .ok (f s a)

/-- The listener ids of the `invoked` events of a trace, in order. -/
def invokedIds {S : Type} (tr : List (Event S)) : List Nat :=
  tr.filterMap fun ev => match ev with | .invoked lid _ => some lid | _ => none

/-- The dispatching-flag samples of the `invoked` events, in order. -/
def invokedFlags {S : Type} (tr : List (Event S)) : List Bool :=
  tr.filterMap fun ev => match ev with | .invoked _ fl => some fl | _ => none

/-- The outcomes of `getState` calls made from inside listeners. -/
def gotStates {S : Type} (tr : List (Event S)) : List (Bool × Option S) :=
  tr.filterMap fun ev => match ev with | .gotState b st => some (b, st) | _ => none

/-- The dispatching-flag samples taken at each entry into the reducer;
its length counts how many reducer invocations the trace contains. -/
def reducerFlags {S : Type} (tr : List (Event S)) : List Bool :=
  tr.filterMap fun ev => match ev with | .reducerCalled fl => some fl | _ => none

/-! ### `src/src/compose.ts` -/

/-- The combining step of `funcs.reduce((a, b) => (...args) => a(b(...args)))`. -/
def composeTwo {α : Type} (a b : α → α) : α → α := fun args => a (b args)

/-- `compose(...funcs)`, lines 46-61: zero functions yield the identity,
one function is returned itself, otherwise the reduce (a left fold
seeded with the first function). -/
def compose {α : Type} (funcs : List (α → α)) : α → α :=
  match funcs with
  | [] => fun arg => arg
  | f :: rest => if rest.isEmpty then f else rest.foldl composeTwo f

/-- Modelled from the spec (for comparison with `compose`): sequentially
apply the functions from rightmost to leftmost. -/
def applyRightToLeft {α : Type} (funcs : List (α → α)) (x : α) : α :=
  funcs.foldr (fun f acc => f acc) x

/-! ### `createStore` argument disambiguation (lines 232-274) -/

/-- The runtime shape of an optional `createStore` argument: undefined, a
function value (identified by a number), or a non-callable value. -/
inductive ArgVal where
  | undef
  | callable (id : Nat)
  | value (v : Nat)
deriving DecidableEq, Repr

/-- `typeof x === 'function'`. -/
def isCallable : ArgVal → Bool
  | .callable _ => true
  | _ => false

/-- `typeof x === 'undefined'`. -/
def isUndef : ArgVal → Bool
  | .undef => true
  | _ => false

/-- How `createStore` proceeds after resolving its optional arguments. -/
inductive CreateResolution where
  | multipleEnhancers
  | enhancerNotFunction
  | delegate (enhancerId : Nat) (preloaded : ArgVal)
  | base (preloaded : ArgVal)
deriving DecidableEq, Repr

/-- The argument-resolution prefix of `createStore` (lines 232-274), run
before any closure state is built: reject two callables as multiple
enhancers, swap a callable second argument into the enhancer slot when
the third is undefined, then either delegate to the enhancer or fall
through to the base store construction. -/
def resolveCreateStore (preloadedState enhancer arg3 : ArgVal) : CreateResolution :=
  if (isCallable preloadedState && isCallable enhancer)
      || (isCallable enhancer && isCallable arg3) then
    .multipleEnhancers
  else
    let sw : ArgVal × ArgVal :=
      if isCallable preloadedState && isUndef enhancer then (.undef, preloadedState)
      else (preloadedState, enhancer)
    if !isUndef sw.2 then
      match sw.2 with
      | .callable i => .delegate i sw.1
      | _ => .enhancerNotFunction
    else .base sw.1

/-! ### Helper lemmas -/

theorem invokedIds_append {S : Type} (t1 t2 : List (Event S)) :
    invokedIds (t1 ++ t2) = invokedIds t1 ++ invokedIds t2 :=
  List.filterMap_append t1 t2 _

theorem invokedFlags_append {S : Type} (t1 t2 : List (Event S)) :
    invokedFlags (t1 ++ t2) = invokedFlags t1 ++ invokedFlags t2 :=
  List.filterMap_append t1 t2 _

theorem gotStates_append {S : Type} (t1 t2 : List (Event S)) :
    gotStates (t1 ++ t2) = gotStates t1 ++ gotStates t2 :=
  List.filterMap_append t1 t2 _

theorem reducerFlags_append {S : Type} (t1 t2 : List (Event S)) :
    reducerFlags (t1 ++ t2) = reducerFlags t1 ++ reducerFlags t2 :=
  List.filterMap_append t1 t2 _

/-- A single listener operation never changes the state, the dispatching
flag or the reducer, emits no `invoked` / `reducerCalled` events, and
every `getState` it performs on a non-dispatching engine succeeds with
the current state. -/
theorem runOp_inv {S : Type} (e : Engine S) (op : LOp) :
    (runOp e op).1.currentState = e.currentState ∧
    (runOp e op).1.isDispatching = e.isDispatching ∧
    (runOp e op).1.currentReducer = e.currentReducer ∧
    invokedIds (runOp e op).2 = [] ∧
    invokedFlags (runOp e op).2 = [] ∧
    reducerFlags (runOp e op).2 = [] ∧
    (e.isDispatching = false →
      ∀ p ∈ gotStates (runOp e op).2, p = (true, e.currentState)) := by
  cases op with
  | opGetState =>
      cases h : e.isDispatching <;>
        simp [runOp, h, invokedIds, invokedFlags, reducerFlags, gotStates]
  | opSubscribe lid =>
      cases h : e.isDispatching <;> cases ha : e.aliased <;>
        simp [runOp, h, ha, ensureCanMutateNextListeners, invokedIds,
          invokedFlags, reducerFlags, gotStates]
  | opUnsub tok =>
      rcases hg : e.subRecords[tok]? with _ | ⟨lid, isSub⟩
      · simp [runOp, hg, invokedIds, invokedFlags, reducerFlags, gotStates]
      · cases isSub <;> cases h : e.isDispatching <;> cases ha : e.aliased <;>
          simp [runOp, hg, h, ha, ensureCanMutateNextListeners, invokedIds,
            invokedFlags, reducerFlags, gotStates]

/-- `runOp_inv` lifted to a whole listener script. -/
theorem runOps_inv {S : Type} (ops : List LOp) (e : Engine S) :
    (runOps e ops).1.currentState = e.currentState ∧
    (runOps e ops).1.isDispatching = e.isDispatching ∧
    (runOps e ops).1.currentReducer = e.currentReducer ∧
    invokedIds (runOps e ops).2 = [] ∧
    invokedFlags (runOps e ops).2 = [] ∧
    reducerFlags (runOps e ops).2 = [] ∧
    (e.isDispatching = false →
      ∀ p ∈ gotStates (runOps e ops).2, p = (true, e.currentState)) := by
  induction ops generalizing e with
  | nil => simp [runOps, invokedIds, invokedFlags, reducerFlags, gotStates]
  | cons op rest ih =>
      obtain ⟨h1, h2, h3, h4, h5, h6, h7⟩ := runOp_inv e op
      obtain ⟨i1, i2, i3, i4, i5, i6, i7⟩ := ih (runOp e op).1
      refine ⟨?_, ?_, ?_, ?_, ?_, ?_, ?_⟩ <;>
        simp only [runOps, invokedIds_append, invokedFlags_append,
          reducerFlags_append, gotStates_append]
      · rw [i1, h1]
      · rw [i2, h2]
      · rw [i3, h3]
      · rw [h4, i4]; rfl
      · rw [h5, i5]; rfl
      · rw [h6, i6]; rfl
      · intro hd p hp
        rcases List.mem_append.mp hp with hp | hp
        · exact h7 hd p hp
        · have := i7 (by rw [h2, hd]) p hp
          rw [this, h1]

/-- The notification loop over snapshot `l`, started on a non-dispatching
engine: the state, flag and reducer are untouched, the invoked listeners
are exactly `l` in order, each invocation happens with the dispatching
flag `false`, the reducer is never entered, and every in-listener
`getState` succeeds with the (post-dispatch) current state. -/
theorem notifyLoop_inv {S : Type} (beh : Nat → List LOp) (l : List Nat)
    (e : Engine S) (hd : e.isDispatching = false) :
    (notifyLoop beh e l).1.currentState = e.currentState ∧
    (notifyLoop beh e l).1.isDispatching = false ∧
    (notifyLoop beh e l).1.currentReducer = e.currentReducer ∧
    invokedIds (notifyLoop beh e l).2 = l ∧
    invokedFlags (notifyLoop beh e l).2 = List.replicate l.length false ∧
    reducerFlags (notifyLoop beh e l).2 = [] ∧
    (∀ p ∈ gotStates (notifyLoop beh e l).2, p = (true, e.currentState)) := by
  induction l generalizing e with
  | nil => simp [notifyLoop, invokedIds, invokedFlags, reducerFlags, gotStates, hd]
  | cons lid rest ih =>
      obtain ⟨h1, h2, h3, h4, h5, h6, h7⟩ := runOps_inv (beh lid) e
      obtain ⟨i1, i2, i3, i4, i5, i6, i7⟩ := ih (runOps e (beh lid)).1 (by rw [h2, hd])
      simp only [invokedIds, invokedFlags, reducerFlags, gotStates]
        at h4 h5 h6 h7 i4 i5 i6 i7 ⊢
      refine ⟨?_, ?_, ?_, ?_, ?_, ?_, ?_⟩ <;>
        simp only [notifyLoop, List.filterMap_cons, List.filterMap_append, hd]
      · rw [i1, h1]
      · exact i2
      · rw [i3, h3]
      · rw [h4, i4]; rfl
      · rw [h5, i5]; simp [List.replicate_succ]
      · rw [h6, i6]; rfl
      · intro p hp
        rcases List.mem_append.mp hp with hp | hp
        · exact h7 hd p hp
        · have := i7 p hp
          rw [this, h1]

/-- The engine at the moment a successful dispatch of `a` begins its
notification phase: the reducer has produced the new state, the finally
block has reset the flag, and the snapshot assignment
`const listeners = (currentListeners = nextListeners)` has re-aliased
the two listener references. -/
def snapEngine {S : Type} (f : Option S → ActionVal → Option S)
    (e : Engine S) (a : ActionVal) : Engine S :=
  ⟨e.currentReducer, f e.currentState a, some e.nextListeners,
   e.nextListeners, true, e.subRecords, false⟩

/-- Unfolding of a dispatch of a valid action on an idle engine whose
reducer does not throw. -/
theorem dispatch_valid_eq {S : Type} (beh : Nat → List LOp)
    (f : Option S → ActionVal → Option S) (e : Engine S) (a : ActionVal)
    (hr : e.currentReducer = liftR f) (hd : e.isDispatching = false)
    (ha : isValidAction a = true) :
    dispatch beh e a =
      (.ok a, (notifyLoop beh (snapEngine f e a) e.nextListeners).1,
       Event.reducerCalled true ::
         (notifyLoop beh (snapEngine f e a) e.nextListeners).2) := by
  have hp : isPlainObject a = true := by
    simp only [isValidAction, Bool.and_eq_true] at ha; exact ha.1
  have ht : actionTypeDefined a = true := by
    simp only [isValidAction, Bool.and_eq_true] at ha; exact ha.2
  obtain ⟨cr, cs, cl, nl, al, sr, idp⟩ := e
  simp only at hr hd
  subst hr hd
  simp [dispatch, hp, ht, snapEngine, liftR]

/-- The observable guarantees of one successful dispatch: it returns the
action, leaves the engine idle with the reducer intact and the state
equal to the reducer's result, invokes exactly the snapshot listeners in
order with the dispatching flag false, enters the reducer exactly once
(with the flag true), and every in-listener `getState` succeeds with the
post-dispatch state. -/
theorem dispatch_valid {S : Type} (beh : Nat → List LOp)
    (f : Option S → ActionVal → Option S) (e : Engine S) (a : ActionVal)
    (hr : e.currentReducer = liftR f) (hd : e.isDispatching = false)
    (ha : isValidAction a = true) :
    (dispatch beh e a).1 = .ok a ∧
    (dispatch beh e a).2.1.currentState = f e.currentState a ∧
    (dispatch beh e a).2.1.isDispatching = false ∧
    (dispatch beh e a).2.1.currentReducer = liftR f ∧
    invokedIds (dispatch beh e a).2.2 = e.nextListeners ∧
    invokedFlags (dispatch beh e a).2.2 =
      List.replicate e.nextListeners.length false ∧
    reducerFlags (dispatch beh e a).2.2 = [true] ∧
    (∀ p ∈ gotStates (dispatch beh e a).2.2, p = (true, f e.currentState a)) := by
  rw [dispatch_valid_eq beh f e a hr hd ha]
  obtain ⟨i1, i2, i3, i4, i5, i6, i7⟩ :=
    notifyLoop_inv beh e.nextListeners (snapEngine f e a) rfl
  refine ⟨rfl, i1, i2, ?_, ?_, ?_, ?_, ?_⟩
  · rw [show (notifyLoop beh (snapEngine f e a) e.nextListeners).1.currentReducer
        = (snapEngine f e a).currentReducer from i3, snapEngine, hr]
  · simpa [invokedIds, List.filterMap_cons] using i4
  · simpa [invokedFlags, List.filterMap_cons] using i5
  · simp only [reducerFlags, List.filterMap_cons] at i6 ⊢
    rw [i6]
  · intro p hp
    simp only [gotStates, List.filterMap_cons] at hp
    exact i7 p hp

/-- Dispatching a list of valid actions on an idle engine with a
non-throwing reducer folds the reducer over the actions from the left. -/
theorem dispatchSeq_fold {S : Type} (beh : Nat → List LOp)
    (f : Option S → ActionVal → Option S) (acts : List ActionVal) (e : Engine S)
    (hr : e.currentReducer = liftR f) (hd : e.isDispatching = false)
    (hv : ∀ a ∈ acts, isValidAction a = true) :
    ∃ e1, dispatchSeq beh e acts = .ok e1 ∧
      e1.currentState = acts.foldl f e.currentState ∧
      e1.isDispatching = false ∧ e1.currentReducer = liftR f := by
  induction acts generalizing e with
  | nil => exact ⟨e, rfl, rfl, hd, hr⟩
  | cons a rest ih =>
      have ha := hv a (List.mem_cons_self a rest)
      have hrest : ∀ b ∈ rest, isValidAction b = true :=
        fun b hb => hv b (List.mem_cons_of_mem a hb)
      obtain ⟨d1, d2, d3, d4, -, -, -, -⟩ := dispatch_valid beh f e a hr hd ha
      rcases hdp : dispatch beh e a with ⟨r, e2, tr⟩
      rw [hdp] at d1 d2 d3 d4
      simp only at d1 d2 d3 d4
      subst d1
      obtain ⟨e1, hseq, hst, hdisp, hred⟩ := ih e2 d4 d3 hrest
      refine ⟨e1, ?_, ?_, hdisp, hred⟩
      · simp only [dispatchSeq, hdp]
        exact hseq
      · rw [hst, d2]
        rfl

/-- A fresh counter reducer following the spec's concrete scenario:
`INC` increments, everything else keeps the state (0 when undefined). -/
def fInc : Option Nat → ActionVal → Option Nat
  | s, ActionVal.plain (some "INC") => some (s.getD 0 + 1)
  | s, _ => some (s.getD 0)

/-- A reducer transition that keeps the state unchanged. -/
def fKeep : Option Nat → ActionVal → Option Nat := fun s _ => s

/-- A reducer that always throws the exception `"boom"`. -/
def throwingReducer : Option Nat → ActionVal → Except String (Option Nat) :=
  fun _ _ => .error "boom"

/-- Listener behaviour: every listener reads the state when invoked. -/
def behRead : Nat → List LOp := fun _ => [LOp.opGetState]

/-- Listener behaviour: listeners do nothing. -/
def behNone : Nat → List LOp := fun _ => []

/-- An idle one-listener engine (listener 0 under token 0), state `0`;
this is the closure state reached by create / subscribe / dispatch. -/
def engOne : Engine Nat :=
  ⟨liftR fKeep, some 0, some [0], [0], true, [(0, true)], false⟩

/-- An idle engine with listeners 0, 1, 2 subscribed under tokens
0, 1, 2, counter state 0. -/
def engThree : Engine Nat :=
  ⟨liftR fInc, some 0, some [0, 1, 2], [0, 1, 2], true,
   [(0, true), (1, true), (2, true)], false⟩

/-- An idle engine whose reducer always throws. -/
def engBoom : Engine Nat :=
  ⟨throwingReducer, some 7, some [0], [0], true, [(0, true)], false⟩

def actX : ActionVal := .plain (some "X")

def actInc : ActionVal := .plain (some "INC")

/-- Claim C1: for every reducer and every sequence of valid dispatched
actions, `getState()` after the sequence equals the left-fold of the
reducer over the sequence starting from the initial state, where for a
store created with no preloaded state the initial state equals
`reducer(undefined, INIT_ACTION)`, dispatched once at construction. -/
theorem c1_state_is_left_fold {S : Type} (beh : Nat → List LOp)
    (f : Option S → ActionVal → Option S) (acts : List ActionVal)
    (hv : ∀ a ∈ acts, isValidAction a = true) :
    ∃ e0 e1, createStoreBase beh (liftR f) none = .ok e0 ∧
      getState e0 = .ok (f none initAction) ∧
      dispatchSeq beh e0 acts = .ok e1 ∧
      getState e1 = .ok (acts.foldl f (f none initAction)) := by
  obtain ⟨e1, hseq, hst, hdisp, -⟩ := dispatchSeq_fold beh f acts
    ⟨liftR f, f none initAction, some [], [], true, [], false⟩ rfl rfl hv
  exact ⟨_, e1, rfl, rfl, hseq, by simp [getState, hdisp, hst]⟩

/-- Witness for C1: the spec's concrete scenario — dispatch `INC` three
times on a fresh counter store; `getState` yields 3. -/
theorem c1_witness : ∃ e0 e1,
    createStoreBase behNone (liftR fInc) none = .ok e0 ∧
    getState e0 = .ok (fInc none initAction) ∧
    dispatchSeq behNone e0 [actInc, actInc, actInc] = .ok e1 ∧
    getState e1 = .ok ([actInc, actInc, actInc].foldl fInc (fInc none initAction)) :=
  c1_state_is_left_fold behNone fInc [actInc, actInc, actInc] (by decide)

/-- Claim C2: for every dispatch, every listener registered before that
dispatch's notification phase begins is invoked exactly once, in
subscription order (the invoked-listener trace equals the snapshot
list), and a `getState()` from inside any such listener succeeds and
returns the post-dispatch state. -/
theorem c2_listeners_invoked_in_order {S : Type} (beh : Nat → List LOp)
    (f : Option S → ActionVal → Option S) (e : Engine S) (a : ActionVal)
    (hr : e.currentReducer = liftR f) (hd : e.isDispatching = false)
    (ha : isValidAction a = true) :
    (dispatch beh e a).1 = .ok a ∧
    invokedIds (dispatch beh e a).2.2 = e.nextListeners ∧
    (∀ p ∈ gotStates (dispatch beh e a).2.2, p = (true, f e.currentState a)) ∧
    getState (dispatch beh e a).2.1 = .ok (f e.currentState a) := by
  obtain ⟨d1, d2, d3, -, d5, -, -, d8⟩ := dispatch_valid beh f e a hr hd ha
  exact ⟨d1, d5, d8, by simp [getState, d3, d2]⟩

/-- Witness for C2: three listeners, each reading the state when
notified; one `INC` dispatch invokes 0, 1, 2 in order and every
in-listener read returns the post-dispatch state 1. -/
theorem c2_witness :
    (dispatch behRead engThree actInc).1 = .ok actInc ∧
    invokedIds (dispatch behRead engThree actInc).2.2 = engThree.nextListeners ∧
    (∀ p ∈ gotStates (dispatch behRead engThree actInc).2.2,
      p = (true, fInc engThree.currentState actInc)) ∧
    getState (dispatch behRead engThree actInc).2.1 =
      .ok (fInc engThree.currentState actInc) :=
  c2_listeners_invoked_in_order behRead fInc engThree actInc rfl rfl (by decide)

/-- Claim C4, amended: the Dispatching flag is true for the duration of
the reducer invocation only; it is false again during the listener
notification phase (the finally clause clears it before the loop) and at
every other time. -/
theorem c4_flag_true_only_during_reducer {S : Type} (beh : Nat → List LOp)
    (f : Option S → ActionVal → Option S) (e : Engine S) (a : ActionVal)
    (hr : e.currentReducer = liftR f) (hd : e.isDispatching = false)
    (ha : isValidAction a = true) :
    reducerFlags (dispatch beh e a).2.2 = [true] ∧
    invokedFlags (dispatch beh e a).2.2 =
      List.replicate e.nextListeners.length false ∧
    (dispatch beh e a).2.1.isDispatching = false := by
  obtain ⟨-, -, d3, -, -, d6, d7, -⟩ := dispatch_valid beh f e a hr hd ha
  exact ⟨d7, d6, d3⟩

/-- Witness for the amended C4 at a concrete one-listener dispatch. -/
theorem c4_witness :
    reducerFlags (dispatch behRead engOne actX).2.2 = [true] ∧
    invokedFlags (dispatch behRead engOne actX).2.2 =
      List.replicate engOne.nextListeners.length false ∧
    (dispatch behRead engOne actX).2.1.isDispatching = false :=
  c4_flag_true_only_during_reducer behRead fKeep engOne actX rfl rfl (by decide)

/-- Counterexample to C4 as stated: in this concrete dispatch the single
listener is invoked with the Dispatching flag already false — not true —
and its in-listener `getState` succeeds with the post-dispatch state,
which the reentrancy guard would forbid were the flag still true during
the notification phase. -/
theorem c4_counterexample :
    invokedFlags (dispatch behRead engOne actX).2.2 = [false] ∧
    invokedFlags (dispatch behRead engOne actX).2.2 ≠ [true] ∧
    gotStates (dispatch behRead engOne actX).2.2 = [(true, some 0)] := by
  refine ⟨rfl, ?_, rfl⟩
  decide

/-- Unfolding of a dispatch of a valid action on an idle engine whose
reducer throws `msg` on the current state: the error propagates, the
state assignment is skipped, the finally clause clears the flag, and the
notification loop is never reached. -/
theorem dispatch_error_eq {S : Type} (beh : Nat → List LOp) (e : Engine S)
    (a : ActionVal) (msg : String)
    (ha : isValidAction a = true) (hd : e.isDispatching = false)
    (hr : e.currentReducer e.currentState a = .error msg) :
    dispatch beh e a = (.error (.reducerRaised msg),
      ⟨e.currentReducer, e.currentState, e.currentListeners, e.nextListeners,
       e.aliased, e.subRecords, false⟩, [Event.reducerCalled true]) := by
  have hp : isPlainObject a = true := by
    simp only [isValidAction, Bool.and_eq_true] at ha; exact ha.1
  have ht : actionTypeDefined a = true := by
    simp only [isValidAction, Bool.and_eq_true] at ha; exact ha.2
  obtain ⟨cr, cs, cl, nl, al, sr, idp⟩ := e
  simp only at hd hr
  subst hd
  simp [dispatch, hp, ht, hr]

/-- On an idle engine, `dispatch` never fails with the reentrancy error
(it may fail with validation errors or a reducer exception). -/
theorem dispatch_idle_not_reentrancy {S : Type} (beh : Nat → List LOp)
    (e : Engine S) (a : ActionVal) (hd : e.isDispatching = false) :
    (dispatch beh e a).1 ≠ Except.error StoreErr.reentrancy := by
  obtain ⟨cr, cs, cl, nl, al, sr, idp⟩ := e
  simp only at hd
  subst hd
  cases hp : isPlainObject a <;> cases ht : actionTypeDefined a <;>
    rcases hres : cr cs a with msg | ns <;>
    simp [dispatch, hp, ht, hres]

/-- On an idle engine, `subscribe` succeeds. -/
theorem subscribe_idle_ok {S : Type} (e : Engine S) (lid : Nat)
    (hd : e.isDispatching = false) :
    ∃ p, subscribe e lid = .ok p := by
  unfold subscribe
  rw [hd]
  exact ⟨_, rfl⟩

/-- Claim C5: when the reducer raises during a dispatch of a valid
action, the exact exception propagates to the caller of `dispatch`, the
Dispatching flag is cleared before propagation, and subsequent guarded
operations (`getState`, `subscribe`, `dispatch`) on the engine succeed
rather than failing with the reentrancy error. -/
theorem c5_reducer_error_propagates {S : Type} (beh : Nat → List LOp)
    (e : Engine S) (a : ActionVal) (msg : String)
    (ha : isValidAction a = true) (hd : e.isDispatching = false)
    (hr : e.currentReducer e.currentState a = .error msg) :
    (dispatch beh e a).1 = .error (.reducerRaised msg) ∧
    (dispatch beh e a).2.1.isDispatching = false ∧
    getState (dispatch beh e a).2.1 = .ok e.currentState ∧
    (∀ lid, ∃ p, subscribe (dispatch beh e a).2.1 lid = .ok p) ∧
    (∀ a2, (dispatch beh (dispatch beh e a).2.1 a2).1 ≠
      Except.error StoreErr.reentrancy) := by
  rw [dispatch_error_eq beh e a msg ha hd hr]
  refine ⟨rfl, rfl, rfl, fun lid => subscribe_idle_ok _ lid rfl,
    fun a2 => dispatch_idle_not_reentrancy beh _ a2 rfl⟩

/-- Witness for C5 on the concrete always-throwing engine. -/
theorem c5_witness :
    (dispatch behNone engBoom actX).1 = .error (.reducerRaised "boom") ∧
    (dispatch behNone engBoom actX).2.1.isDispatching = false ∧
    getState (dispatch behNone engBoom actX).2.1 = .ok engBoom.currentState ∧
    (∀ lid, ∃ p, subscribe (dispatch behNone engBoom actX).2.1 lid = .ok p) ∧
    (∀ a2, (dispatch behNone (dispatch behNone engBoom actX).2.1 a2).1 ≠
      Except.error StoreErr.reentrancy) :=
  c5_reducer_error_propagates behNone engBoom actX "boom" (by decide) rfl rfl

/-- Claim C10: a dispatch whose reducer raises is atomic — afterwards
`getState()` returns the state held before the dispatch, and no listener
is invoked by that dispatch. -/
theorem c10_failed_dispatch_is_atomic {S : Type} (beh : Nat → List LOp)
    (e : Engine S) (a : ActionVal) (msg : String)
    (ha : isValidAction a = true) (hd : e.isDispatching = false)
    (hr : e.currentReducer e.currentState a = .error msg) :
    (dispatch beh e a).2.1.currentState = e.currentState ∧
    getState (dispatch beh e a).2.1 = .ok e.currentState ∧
    invokedIds (dispatch beh e a).2.2 = [] := by
  rw [dispatch_error_eq beh e a msg ha hd hr]
  exact ⟨rfl, rfl, rfl⟩

/-- Witness for C10 on the concrete always-throwing engine: the state is
still 7 and the subscribed listener 0 was not invoked. -/
theorem c10_witness :
    (dispatch behRead engBoom actX).2.1.currentState = engBoom.currentState ∧
    getState (dispatch behRead engBoom actX).2.1 = .ok engBoom.currentState ∧
    invokedIds (dispatch behRead engBoom actX).2.2 = [] :=
  c10_failed_dispatch_is_atomic behRead engBoom actX "boom" (by decide) rfl rfl

/-- Claim C6: `dispatch` validates the action before any state change and
in order — a non-plain value (a string, `null`, an array) fails with
`InvalidAction`, and a plain object with an undefined `type` fails with
`MissingType`; in every such case the engine is returned untouched and
no listener runs. -/
theorem c6_validation_order {S : Type} (beh : Nat → List LOp) (e : Engine S) :
    (∀ a, isPlainObject a = false →
        dispatch beh e a = (.error .invalidAction, e, [])) ∧
    dispatch beh e (ActionVal.strVal "not-an-object") =
      (.error .invalidAction, e, []) ∧
    dispatch beh e ActionVal.nullVal = (.error .invalidAction, e, []) ∧
    dispatch beh e (ActionVal.plain none) = (.error .missingType, e, []) := by
  refine ⟨?_, rfl, rfl, rfl⟩
  intro a hp
  simp [dispatch, hp]

/-- Witness for C6, instantiating the quantified non-plain case at an
array value. -/
theorem c6_witness :
    dispatch behRead engOne ActionVal.arrVal = (.error .invalidAction, engOne, []) :=
  (c6_validation_order behRead engOne).1 ActionVal.arrVal rfl

/-- Claim C7: `createStore` disambiguates its optional arguments — a
callable in both the second and the third position is rejected as
multiple enhancers by the argument-resolution prefix (before any closure
state is built), while a callable second argument with an undefined
third is swapped into the enhancer slot with no preloaded state. -/
theorem c7_enhancer_disambiguation :
    (∀ (i j : Nat) (a3 : ArgVal),
        resolveCreateStore (ArgVal.callable i) (ArgVal.callable j) a3 =
          CreateResolution.multipleEnhancers) ∧
    (∀ i : Nat,
        resolveCreateStore (ArgVal.callable i) ArgVal.undef ArgVal.undef =
          CreateResolution.delegate i ArgVal.undef) :=
  ⟨fun _ _ _ => rfl, fun _ => rfl⟩

/-- Claim C8: `replaceReducer(nextReducer)` swaps the active reducer and
performs exactly one internal dispatch (one reducer entry in the trace)
of the reserved replace action, after which `getState()` returns the new
reducer applied to the prior state and that action; the result is the
same store, with its closure fields updated. -/
theorem c8_replaceReducer_swaps_and_redispatches {S : Type}
    (beh : Nat → List LOp) (g : Option S → ActionVal → Option S)
    (e : Engine S) (hd : e.isDispatching = false) :
    (replaceReducer beh e (liftR g)).1 = .ok replaceAction ∧
    (replaceReducer beh e (liftR g)).2.1.currentReducer = liftR g ∧
    getState (replaceReducer beh e (liftR g)).2.1 =
      .ok (g e.currentState replaceAction) ∧
    reducerFlags (replaceReducer beh e (liftR g)).2.2 = [true] := by
  obtain ⟨d1, d2, d3, d4, -, -, d7, -⟩ := dispatch_valid beh g
    ⟨liftR g, e.currentState, e.currentListeners, e.nextListeners,
     e.aliased, e.subRecords, e.isDispatching⟩ replaceAction rfl hd rfl
  refine ⟨d1, d4, ?_, d7⟩
  show getState (dispatch beh
    ⟨liftR g, e.currentState, e.currentListeners, e.nextListeners,
     e.aliased, e.subRecords, e.isDispatching⟩ replaceAction).2.1 = _
  simp [getState, d3, d2]

/-- Witness for C8: swapping the counter reducer in for the keep-state
reducer on the one-listener engine re-derives the state via the replace
action. -/
theorem c8_witness :
    (replaceReducer behRead engOne (liftR fInc)).1 = .ok replaceAction ∧
    (replaceReducer behRead engOne (liftR fInc)).2.1.currentReducer = liftR fInc ∧
    getState (replaceReducer behRead engOne (liftR fInc)).2.1 =
      .ok (fInc engOne.currentState replaceAction) ∧
    reducerFlags (replaceReducer behRead engOne (liftR fInc)).2.2 = [true] :=
  c8_replaceReducer_swaps_and_redispatches behRead fInc engOne rfl

/-- The seeded left fold of `composeTwo` applies the accumulator last. -/
theorem foldl_composeTwo {α : Type} (l : List (α → α)) (acc : α → α) (x : α) :
    l.foldl composeTwo acc x = acc (applyRightToLeft l x) := by
  induction l generalizing acc with
  | nil => rfl
  | cons f t ih =>
      simp only [List.foldl_cons, ih (composeTwo acc f), applyRightToLeft,
        List.foldr_cons, composeTwo]

/-- Claim C9: for every list of single-argument functions and every
argument, `compose` equals applying the functions from rightmost to
leftmost; zero functions yield the identity and one function is returned
itself. -/
theorem c9_compose_right_to_left (α : Type) :
    (∀ (fs : List (α → α)) (x : α), compose fs x = applyRightToLeft fs x) ∧
    (∀ x : α, compose ([] : List (α → α)) x = x) ∧
    (∀ f : α → α, compose [f] = f) := by
  refine ⟨?_, fun _ => rfl, fun _ => rfl⟩
  intro fs x
  match fs with
  | [] => rfl
  | [f] => rfl
  | f :: g :: t =>
      show (g :: t).foldl composeTwo f x = _
      rw [foldl_composeTwo]
      rfl

/-- The notification loop splits over an appended snapshot. -/
theorem notifyLoop_append {S : Type} (beh : Nat → List LOp) (l1 l2 : List Nat)
    (e : Engine S) :
    notifyLoop beh e (l1 ++ l2) =
      ((notifyLoop beh (notifyLoop beh e l1).1 l2).1,
       (notifyLoop beh e l1).2 ++ (notifyLoop beh (notifyLoop beh e l1).1 l2).2) := by
  induction l1 generalizing e with
  | nil => simp [notifyLoop]
  | cons lid rest ih => simp [notifyLoop, ih]

/-- Listeners with empty scripts leave the engine untouched; the loop
only records their invocations. -/
theorem notifyLoop_quiet {S : Type} (beh : Nat → List LOp) (l : List Nat)
    (e : Engine S) (hq : ∀ z ∈ l, beh z = []) :
    notifyLoop beh e l = (e, l.map fun z => Event.invoked z e.isDispatching) := by
  induction l with
  | nil => simp [notifyLoop]
  | cons lid rest ih =>
      have h0 : beh lid = [] := hq lid (List.mem_cons_self lid rest)
      have hrest := ih fun z hz => hq z (List.mem_cons_of_mem lid hz)
      simp [notifyLoop, h0, runOps, hrest]

/-- Executing the single-operation script that calls the unsubscribe
closure of token `t` (bound to listener `lid`, still subscribed) on a
non-dispatching engine: the subscription flag flips, the working list is
cloned and the listener removed from it, and the committed reference is
nulled out — the computed removal leaves any other list value alone. -/
theorem runOps_unsub {S : Type} (e : Engine S) (t lid : Nat)
    (hg : e.subRecords[t]? = some (lid, true)) (hd : e.isDispatching = false) :
    runOps e [LOp.opUnsub t] =
      (⟨e.currentReducer, e.currentState, none,
        removeListener lid e.nextListeners, false,
        e.subRecords.set t (lid, false), false⟩, [Event.unsubscribed t]) := by
  obtain ⟨cr, cs, cl, nl, al, sr, idp⟩ := e
  simp only at hg hd
  subst hd
  cases al <;> simp [runOps, runOp, hg, ensureCanMutateNextListeners]

/-- A trace consisting only of invocation marks reads back as the
invoked listener list. -/
theorem invokedIds_map_invoked {S : Type} (l : List Nat) (fl : Bool) :
    invokedIds (l.map fun z => (Event.invoked z fl : Event S)) = l := by
  induction l with
  | nil => rfl
  | cons z rest ih =>
      simp only [List.map_cons, invokedIds, List.filterMap_cons] at ih ⊢
      rw [ih]

/-- Claim C3: the listener list used by one dispatch's notification
phase is a fixed snapshot — when listener `x` unsubscribes the
subscription of listener `y` (token `t`) during the phase, `y` is still
invoked by the in-progress notification (the invoked trace is the whole
snapshot), yet `y`'s occurrence is removed from the working list, so the
snapshot taken by any subsequent dispatch no longer contains it. -/
theorem c3_snapshot_stable_under_unsubscribe {S : Type} (beh : Nat → List LOp)
    (f : Option S → ActionVal → Option S) (e : Engine S) (a : ActionVal)
    (x y t : Nat) (s1 s2 : List Nat)
    (hr : e.currentReducer = liftR f) (hd : e.isDispatching = false)
    (ha : isValidAction a = true)
    (hs : e.nextListeners = s1 ++ x :: s2)
    (hx1 : x ∉ s1) (hx2 : x ∉ s2)
    (htok : e.subRecords[t]? = some (y, true))
    (hbx : beh x = [LOp.opUnsub t])
    (hbz : ∀ z, z ≠ x → beh z = []) :
    (dispatch beh e a).1 = .ok a ∧
    invokedIds (dispatch beh e a).2.2 = s1 ++ x :: s2 ∧
    (dispatch beh e a).2.1.nextListeners = removeListener y (s1 ++ x :: s2) ∧
    (∀ (beh2 : Nat → List LOp) (a2 : ActionVal), isValidAction a2 = true →
      invokedIds (dispatch beh2 (dispatch beh e a).2.1 a2).2.2 =
        removeListener y (s1 ++ x :: s2)) := by
  have hq1 : ∀ z ∈ s1, beh z = [] := fun z hz =>
    hbz z (fun h => hx1 (h ▸ hz))
  have hq2 : ∀ z ∈ s2, beh z = [] := fun z hz =>
    hbz z (fun h => hx2 (h ▸ hz))
  have he := dispatch_valid_eq beh f e a hr hd ha
  -- run the loop over the three pieces of the snapshot
  have h1 : notifyLoop beh (snapEngine f e a) s1 =
      (snapEngine f e a, s1.map fun z => Event.invoked z false) := by
    simpa using notifyLoop_quiet beh s1 (snapEngine f e a) hq1
  have hronx : runOps (snapEngine f e a) (beh x) =
      (⟨e.currentReducer, f e.currentState a, none,
        removeListener y e.nextListeners, false,
        e.subRecords.set t (y, false), false⟩, [Event.unsubscribed t]) := by
    rw [hbx]
    exact runOps_unsub (snapEngine f e a) t y htok rfl
  have h2 : notifyLoop beh
      (⟨e.currentReducer, f e.currentState a, none,
        removeListener y e.nextListeners, false,
        e.subRecords.set t (y, false), false⟩ : Engine S) s2 =
      (⟨e.currentReducer, f e.currentState a, none,
        removeListener y e.nextListeners, false,
        e.subRecords.set t (y, false), false⟩,
       s2.map fun z => Event.invoked z false) := by
    simpa using notifyLoop_quiet beh s2 _ hq2
  have h4 : notifyLoop beh (snapEngine f e a) (s1 ++ x :: s2) =
      (⟨e.currentReducer, f e.currentState a, none,
        removeListener y e.nextListeners, false,
        e.subRecords.set t (y, false), false⟩,
       (s1.map fun z => Event.invoked z false) ++
         Event.invoked x false ::
           ([Event.unsubscribed t] ++ s2.map fun z => Event.invoked z false)) := by
    rw [notifyLoop_append, h1]
    simp only [notifyLoop, hronx, h2]
    constructor
  rw [hs] at he
  rw [h4] at he
  rw [he]
  refine ⟨rfl, ?_, ?_, ?_⟩
  · have hm1 := invokedIds_map_invoked (S := S) s1 false
    have hm2 := invokedIds_map_invoked (S := S) s2 false
    simp only [invokedIds, List.filterMap_cons, List.filterMap_append] at hm1 hm2 ⊢
    simp [hm1, hm2]
  · simp only [hs]
  · intro beh2 a2 ha2
    obtain ⟨-, -, -, -, d5, -, -, -⟩ := dispatch_valid beh2 f
      (⟨e.currentReducer, f e.currentState a, none,
        removeListener y e.nextListeners, false,
        e.subRecords.set t (y, false), false⟩ : Engine S) a2 hr rfl ha2
    rw [d5]
    simp only [hs]

/-- An idle engine with listeners 0 and 1 subscribed under tokens 0 and
1, keep-state reducer. -/
def engC3 : Engine Nat :=
  ⟨liftR fKeep, some 0, some [0, 1], [0, 1], true, [(0, true), (1, true)], false⟩

/-- Listener behaviour: listener 0 calls the unsubscribe closure of
token 1 (listener 1) when invoked; everyone else does nothing. -/
def behC3 : Nat → List LOp := fun z => if z = 0 then [LOp.opUnsub 1] else []

/-- Witness for C3: with listeners 0 and 1 subscribed, listener 0
unsubscribes listener 1 during notification; listener 1 is still invoked
by the in-progress dispatch, and every subsequent dispatch notifies only
listener 0. -/
theorem c3_witness :
    (dispatch behC3 engC3 actX).1 = .ok actX ∧
    invokedIds (dispatch behC3 engC3 actX).2.2 = [] ++ 0 :: [1] ∧
    (dispatch behC3 engC3 actX).2.1.nextListeners =
      removeListener 1 ([] ++ 0 :: [1]) ∧
    (∀ (beh2 : Nat → List LOp) (a2 : ActionVal), isValidAction a2 = true →
      invokedIds (dispatch beh2 (dispatch behC3 engC3 actX).2.1 a2).2.2 =
        removeListener 1 ([] ++ 0 :: [1])) :=
  c3_snapshot_stable_under_unsubscribe behC3 fKeep engC3 actX 0 1 1 [] [1]
    rfl rfl (by decide) rfl (by decide) (by decide) rfl rfl
    (fun z hz => by simp [behC3, hz])

end SccRedux
